import Mathlib

/-!
Shallow embedding of rexpect (`src/session.rs`).

The OS is modelled as an explicit state: a descriptor table mapping open file
descriptors to resource identifiers (the PTY master is one resource; `dup`
creates a second descriptor for the same resource), the single child process's
state, the list of signals delivered to it, the byte stream that has reached
the PTY master device, and a log of the system calls performed.

`PtySession` and its operations `send_line`, `status`, `exit`, and the free
function `spawn` are translated from `src/session.rs`.  The buffering of
`std::io::LineWriter` (over a `BufWriter` with capacity 1024) is modelled
explicitly, since `send_line` writes through it.  `PtyProcess::new` lives in
the `process` module, which is not among the sources; it is modelled from the
spec (see its doc comment).
-/

abbrev Fd := Nat
abbrev Pid := Nat
abbrev ResId := Nat
abbrev Byte := Nat

def newlineByte : Byte := 10

inductive Sig where
  | SIGHUP
deriving DecidableEq, Repr

inductive Errno where
  | EBADF
  | ESRCH
  | ECHILD
  | EMFILE
  | EIO
deriving DecidableEq, Repr

/-- Errors as produced by the `error-chain` idiom used in `session.rs`:
an underlying OS error, possibly wrapped (`chain_err`) with a context string. -/
inductive RError where
  | os (e : Errno)
  | chained (context : String) (cause : RError)
deriving DecidableEq, Repr

inductive WaitStatus where
  | stillAlive
  | exited (pid : Pid) (code : Nat)
  | signaled (pid : Pid) (sg : Sig)
deriving DecidableEq, Repr

inductive ChildSt where
  | running
  | exitedWith (code : Nat)
  | killedBy (sg : Sig)
deriving DecidableEq, Repr

inductive SysEvent where
  | kill (pid : Pid) (sg : Sig)
  | close (fd : Fd)
  | write (fd : Fd) (data : List Byte)
  | wait (pid : Pid) (nohang : Bool)
  | dup (oldFd newFd : Fd)
deriving DecidableEq, Repr

def SysEvent.isWait : SysEvent → Bool
  | .wait _ _ => true
  | _ => false

structure OS where
  fdTable : List (Fd × ResId)
  nextFd : Fd
  nextRes : ResId
  fdLimit : Nat
  childPid : Pid
  nextPid : Pid
  childSt : ChildSt
  childReaped : Bool
  childSignals : List Sig
  childProgram : Option String
  childArgs : List String
  ptyWritten : List Byte
  log : List SysEvent
deriving DecidableEq, Repr

def OS.lookupFd (os : OS) (fd : Fd) : Option ResId :=
  (os.fdTable.find? (fun p => p.1 == fd)).map (fun p => p.2)

/-- All descriptors in the table are below `nextFd`, so freshly allocated
descriptors are really fresh. -/
def OS.wf (os : OS) : Bool :=
  os.fdTable.all (fun p => decide (p.1 < os.nextFd))

/-- Model of `write(2)` on the PTY master: fails with `EBADF` on a closed descriptor,
otherwise the bytes reach the device. -/
def sysWrite (fd : Fd) (data : List Byte) (os : OS) : Except Errno Unit × OS :=
  match os.lookupFd fd with
  | none => (Except.error Errno.EBADF, os)
  | some _ =>
    (Except.ok (),
     { os with ptyWritten := os.ptyWritten ++ data,
               log := os.log ++ [SysEvent.write fd data] })

/-- Model of `close(2)`: removes the descriptor from the table. -/
def sysClose (fd : Fd) (os : OS) : Except Errno Unit × OS :=
  match os.lookupFd fd with
  | none => (Except.error Errno.EBADF, os)
  | some _ =>
    (Except.ok (),
     { os with fdTable := os.fdTable.filter (fun p => p.1 != fd),
               log := os.log ++ [SysEvent.close fd] })

/-- Model of `kill(2)`: delivers a signal to the child (valid while the child exists,
i.e. is not yet reaped); `ESRCH` otherwise. -/
def sysKill (pid : Pid) (sg : Sig) (os : OS) : Except Errno Unit × OS :=
  if pid == os.childPid && !os.childReaped then
    (Except.ok (),
     { os with childSignals := os.childSignals ++ [sg],
               log := os.log ++ [SysEvent.kill pid sg] })
  else
    (Except.error Errno.ESRCH, os)

/-- Model of `dup` (what `File::try_clone` performs): a fresh descriptor for the same
underlying resource; `EMFILE` on descriptor exhaustion. -/
def sysDup (fd : Fd) (os : OS) : Except Errno Fd × OS :=
  match os.lookupFd fd with
  | none => (Except.error Errno.EBADF, os)
  | some r =>
    if os.fdLimit ≤ os.fdTable.length then
      (Except.error Errno.EMFILE, os)
    else
      (Except.ok os.nextFd,
       { os with fdTable := os.fdTable ++ [(os.nextFd, r)],
                 nextFd := os.nextFd + 1,
                 log := os.log ++ [SysEvent.dup fd os.nextFd] })

deriving instance DecidableEq for Except

/-- Outcome of a `waitpid(2)` call: either it returns (a status or an error),
or — without `WNOHANG`, on an unchanged child — it blocks. -/
inductive WaitCall where
  | returns (r : Except Errno WaitStatus)
  | blocks
deriving DecidableEq, Repr

/-- Model of `waitpid(2)`: with `WNOHANG` (`nohang = true`) an unchanged child yields
`StillAlive` immediately; without it the call blocks.  A terminated child is
reaped by the call; an unknown or already-reaped pid yields `ECHILD`. -/
def sysWaitpid (pid : Pid) (nohang : Bool) (os : OS) : WaitCall × OS :=
  if pid != os.childPid || os.childReaped then
    (WaitCall.returns (Except.error Errno.ECHILD),
     { os with log := os.log ++ [SysEvent.wait pid nohang] })
  else
    match os.childSt with
    | ChildSt.running =>
      if nohang then
        (WaitCall.returns (Except.ok WaitStatus.stillAlive),
         { os with log := os.log ++ [SysEvent.wait pid nohang] })
      else
        (WaitCall.blocks, os)
    | ChildSt.exitedWith c =>
      (WaitCall.returns (Except.ok (WaitStatus.exited pid c)),
       { os with childReaped := true, log := os.log ++ [SysEvent.wait pid nohang] })
    | ChildSt.killedBy sg =>
      (WaitCall.returns (Except.ok (WaitStatus.signaled pid sg)),
       { os with childReaped := true, log := os.log ++ [SysEvent.wait pid nohang] })

/-! ### `std::io::LineWriter` over a `File`

`LineWriter::new` uses a `BufWriter` with a default capacity of 1024 bytes.
`write_all` of data containing no newline goes through `BufWriter::write`:
the pending buffer is flushed first when the incoming bytes would overflow
it, data at least as long as the capacity is then written straight to the
descriptor, and shorter data is kept in the in-memory buffer.  Data
containing a newline first flushes the pending buffer, then writes
everything up to and including the last newline straight to the descriptor,
and buffers the tail. -/

def lineWriterCapacity : Nat := 1024

structure LineWriter where
  fd : Fd
  buf : List Byte
deriving DecidableEq, Repr

/-- Split the data at its last newline: `some (pre, post)` with
`pre ++ post = data`, `pre` ending in the last newline; `none` when the data
contains no newline. -/
def lastNlSplit : List Byte → Option (List Byte × List Byte)
  | [] => none
  | b :: rest =>
    match lastNlSplit rest with
    | some (p, q) => some (b :: p, q)
    | none => if b == newlineByte then some ([b], rest) else none

/-- Model of `BufWriter::flush_buf`: writes the pending bytes, if any, to the
descriptor. -/
def flushBuf (w : LineWriter) (os : OS) : Except Errno Unit × LineWriter × OS :=
  if w.buf.isEmpty then
    (Except.ok (), w, os)
  else
    match sysWrite w.fd w.buf os with
    | (Except.ok _, os₁) => (Except.ok (), { w with buf := [] }, os₁)
    | (Except.error e, os₁) => (Except.error e, w, os₁)

/-- Model of `BufWriter::write_all` of newline-free data, after Rust's
`BufWriter::write`: first flush the pending buffer when the incoming bytes
would overflow it (`buf.len() + data.len() > capacity`); then, independently,
write the data straight to the descriptor, bypassing the buffer, when
`data.len() >= capacity`, and append it to the buffer otherwise. -/
def bufWriterWrite (w : LineWriter) (data : List Byte) (os : OS) :
    Except Errno Unit × LineWriter × OS :=
  match (if lineWriterCapacity < w.buf.length + data.length
         then flushBuf w os
         else (Except.ok (), w, os)) with
  | (Except.error e, w₁, os₁) => (Except.error e, w₁, os₁)
  | (Except.ok _, w₁, os₁) =>
    if lineWriterCapacity ≤ data.length then
      match sysWrite w₁.fd data os₁ with
      | (Except.ok _, os₂) => (Except.ok (), w₁, os₂)
      | (Except.error e, os₂) => (Except.error e, w₁, os₂)
    else
      (Except.ok (), { w₁ with buf := w₁.buf ++ data }, os₁)

/-- Model of `LineWriter::write_all`. -/
def lineWriterWriteAll (w : LineWriter) (data : List Byte) (os : OS) :
    Except Errno Unit × LineWriter × OS :=
  match lastNlSplit data with
  | none => bufWriterWrite w data os
  | some (pre, post) =>
    match flushBuf w os with
    | (Except.error e, w₁, os₁) => (Except.error e, w₁, os₁)
    | (Except.ok _, w₁, os₁) =>
      match sysWrite w₁.fd pre os₁ with
      | (Except.error e, os₂) => (Except.error e, w₁, os₂)
      | (Except.ok _, os₂) => bufWriterWrite w₁ post os₂

/-! ### The repository's data model -/

structure Command where
  program : String
  args : List String
deriving DecidableEq, Repr

/-- Model of `std::process::Command::new`: the whole argument is the program name and
the argument list starts empty. -/
def Command.new (program : String) : Command :=
  { program := program, args := [] }

/-- Modelled from the spec: `PtyProcess` (module `process`, not among the
sources) owns the PTY master descriptor (`pty`, whose `as_raw_fd` is the
descriptor itself) and the child's pid (`child_pid`). -/
structure PtyProcess where
  pty : Fd
  child_pid : Pid
deriving DecidableEq, Repr

/-- Modelled from the spec: `PtyProcess::new` (module `process`, not among the
sources) allocates a PTY master/slave pair, forks, attaches the slave as the
child's controlling terminal and standard streams, execs the command, and in
the parent retains the master descriptor and the child pid; it fails on
resource exhaustion. -/
def PtyProcess.new (command : Command) (os : OS) : Except Errno PtyProcess × OS :=
  if os.fdLimit ≤ os.fdTable.length then
    (Except.error Errno.EMFILE, os)
  else
    (Except.ok { pty := os.nextFd, child_pid := os.nextPid },
     { os with fdTable := os.fdTable ++ [(os.nextFd, os.nextRes)],
               nextFd := os.nextFd + 1,
               nextRes := os.nextRes + 1,
               childPid := os.nextPid,
               nextPid := os.nextPid + 1,
               childSt := ChildSt.running,
               childReaped := false,
               childSignals := [],
               childProgram := some command.program,
               childArgs := command.args })

structure PtySession where
  process : PtyProcess
  writer : LineWriter
  readerFd : Fd
deriving DecidableEq, Repr

/-- Model of `PtySession::send_line`:
`self.writer.write_all(line.as_bytes()).chain_err(|| "cannot write line to process")`. -/
def PtySession.send_line (s : PtySession) (line : List Byte) (os : OS) :
    Except RError Unit × PtySession × OS :=
  match lineWriterWriteAll s.writer line os with
  | (Except.ok _, w₁, os₁) => (Except.ok (), { s with writer := w₁ }, os₁)
  | (Except.error e, w₁, os₁) =>
    (Except.error (RError.chained "cannot write line to process" (RError.os e)),
     { s with writer := w₁ }, os₁)

/-- Model of `PtySession::status`:
`wait::waitpid(self.process.child_pid, Some(wait::WNOHANG)).chain_err(|| "cannot read status")`.
The `blocks` branch is unreachable because `WNOHANG` is passed. -/
def PtySession.status (s : PtySession) (os : OS) : Except RError WaitStatus × OS :=
  match sysWaitpid s.process.child_pid true os with
  | (WaitCall.returns (Except.ok w), os₁) => (Except.ok w, os₁)
  | (WaitCall.returns (Except.error e), os₁) =>
    (Except.error (RError.chained "cannot read status" (RError.os e)), os₁)
  | (WaitCall.blocks, os₁) =>
    (Except.error (RError.chained "cannot read status" (RError.os Errno.EIO)), os₁)

/-- Model of `PtySession::exit`:
`signal::kill(self.process.child_pid, signal::SIGHUP).and_then(|_| unistd::close(self.process.pty.as_raw_fd())).chain_err(|| "failed to exit process")`. -/
def PtySession.exit (s : PtySession) (os : OS) : Except RError Unit × OS :=
  match sysKill s.process.child_pid Sig.SIGHUP os with
  | (Except.error e, os₁) =>
    (Except.error (RError.chained "failed to exit process" (RError.os e)), os₁)
  | (Except.ok _, os₁) =>
    match sysClose s.process.pty os₁ with
    | (Except.error e, os₂) =>
      (Except.error (RError.chained "failed to exit process" (RError.os e)), os₂)
    | (Except.ok _, os₂) => (Except.ok (), os₂)

/-- Model of `spawn`: builds the command, starts the `PtyProcess`, rebuilds the master
descriptor as a `File` (`from_raw_fd`, the same descriptor), clones it
(`try_clone`, a `dup`) for the line-buffered writer, and keeps the original
descriptor for the buffered reader. -/
def spawn (program : String) (os : OS) : Except RError PtySession × OS :=
  let command := Command.new program
  match PtyProcess.new command os with
  | (Except.error e, os₁) =>
    (Except.error (RError.chained "couldn't start process" (RError.os e)), os₁)
  | (Except.ok process, os₁) =>
    match sysDup process.pty os₁ with
    | (Except.error e, os₂) =>
      (Except.error (RError.chained "couldn't open write stream" (RError.os e)), os₂)
    | (Except.ok wfd, os₂) =>
      (Except.ok { process := process,
                   writer := { fd := wfd, buf := [] },
                   readerFd := process.pty }, os₂)

/-! ### Concrete states used by the witnesses -/

/-- A fresh OS state: no descriptors open, no child yet. -/
def initOS : OS :=
  { fdTable := [], nextFd := 3, nextRes := 0, fdLimit := 64,
    childPid := 0, nextPid := 100, childSt := ChildSt.running,
    childReaped := true, childSignals := [], childProgram := none,
    childArgs := [], ptyWritten := [], log := [] }

/-- The OS state right after `spawn "cat" initOS` (log cleared). -/
def sampleOS : OS :=
  { fdTable := [(3, 0), (4, 0)], nextFd := 5, nextRes := 1, fdLimit := 64,
    childPid := 100, nextPid := 101, childSt := ChildSt.running,
    childReaped := false, childSignals := [], childProgram := some "cat",
    childArgs := [], ptyWritten := [], log := [] }

/-- The session returned by `spawn "cat" initOS`. -/
def sampleSession : PtySession :=
  { process := { pty := 3, child_pid := 100 },
    writer := { fd := 4, buf := [] },
    readerFd := 3 }

/-! ### Helper lemmas -/

theorem find?_filter_key_ne (l : List (Fd × ResId)) (fd : Fd) :
    (l.filter (fun p => p.1 != fd)).find? (fun p => p.1 == fd) = none := by
  induction l with
  | nil => rfl
  | cons p t ih =>
    by_cases h : p.1 = fd
    · simp [List.filter_cons, h, ih]
    · simp [List.filter_cons, h, List.find?_cons, ih]

theorem sysWaitpid_nohang_returns (pid : Pid) (os : OS) :
    (sysWaitpid pid true os).1 ≠ WaitCall.blocks ∧
    ((sysWaitpid pid true os).2).log = os.log ++ [SysEvent.wait pid true] := by
  unfold sysWaitpid
  split
  · simp
  · split <;> simp

/-! ### Claims -/

/-- C1: `exit()` sends `SIGHUP` to the child and then closes the master
PTY descriptor, in that order; on every successful `exit` both steps were
performed: the syscall log grows by exactly the kill followed by the close,
the master descriptor is no longer open afterwards, and the child received
the hangup signal. -/
theorem exit_sends_sighup_then_closes (s : PtySession) (os os' : OS)
    (h : PtySession.exit s os = (Except.ok (), os')) :
    os'.log = os.log ++ [SysEvent.kill s.process.child_pid Sig.SIGHUP,
                         SysEvent.close s.process.pty] ∧
    os'.lookupFd s.process.pty = none ∧
    os'.childSignals = os.childSignals ++ [Sig.SIGHUP] := by
  unfold PtySession.exit at h
  split at h
  · simp at h
  · rename_i u os₁ heq
    split at h
    · simp at h
    · rename_i u₂ os₂ heq₂
      unfold sysKill at heq
      split at heq
      · cases heq
        unfold sysClose at heq₂
        split at heq₂
        · cases heq₂
        · cases heq₂
          cases h
          refine ⟨by simp, ?_, by simp⟩
          simp [OS.lookupFd, find?_filter_key_ne]
      · cases heq

/-- Witness for C1 at a concrete post-spawn state. -/
theorem exit_sends_sighup_then_closes_witness :
    ((PtySession.exit sampleSession sampleOS).2).log
      = sampleOS.log ++ [SysEvent.kill sampleSession.process.child_pid Sig.SIGHUP,
                         SysEvent.close sampleSession.process.pty] ∧
    ((PtySession.exit sampleSession sampleOS).2).lookupFd sampleSession.process.pty = none ∧
    ((PtySession.exit sampleSession sampleOS).2).childSignals
      = sampleOS.childSignals ++ [Sig.SIGHUP] :=
  exit_sends_sighup_then_closes sampleSession sampleOS
    ((PtySession.exit sampleSession sampleOS).2) (by decide)

/-- C2: `status()` polls the child with `waitpid` under `WNOHANG`: the
call can never block (for every state, the wait under the no-hang option does
not take the blocking branch), exactly one no-hang wait syscall is logged, and
when the child has not changed state the result is `StillAlive` immediately,
leaving the child untouched. -/
theorem status_polls_wnohang_nonblocking (s : PtySession) (os : OS) :
    (sysWaitpid s.process.child_pid true os).1 ≠ WaitCall.blocks ∧
    ((PtySession.status s os).2).log = os.log ++ [SysEvent.wait s.process.child_pid true] ∧
    (s.process.child_pid = os.childPid → os.childReaped = false →
     os.childSt = ChildSt.running →
      (PtySession.status s os).1 = Except.ok WaitStatus.stillAlive ∧
      ((PtySession.status s os).2).childSt = os.childSt ∧
      ((PtySession.status s os).2).childReaped = false) := by
  refine ⟨(sysWaitpid_nohang_returns s.process.child_pid os).1, ?_, ?_⟩
  · unfold PtySession.status
    split
    · rename_i w os₁ heq
      have := (sysWaitpid_nohang_returns s.process.child_pid os).2
      rw [heq] at this
      exact this
    · rename_i e os₁ heq
      have := (sysWaitpid_nohang_returns s.process.child_pid os).2
      rw [heq] at this
      exact this
    · rename_i os₁ heq
      exact absurd (congrArg Prod.fst heq)
        (by simpa using (sysWaitpid_nohang_returns s.process.child_pid os).1)
  · intro hpid hreap hrun
    simp [PtySession.status, sysWaitpid, hpid, hreap, hrun]

/-- Witness for C2 at a concrete state with a running child. -/
theorem status_polls_wnohang_nonblocking_witness :
    (PtySession.status sampleSession sampleOS).1 = Except.ok WaitStatus.stillAlive :=
  ((status_polls_wnohang_nonblocking sampleSession sampleOS).2.2 rfl rfl rfl).1

/-- C7: `exit()` never performs a reaping wait: whatever the outcome, the
child's reaped flag and state are unchanged and no `waitpid` syscall appears
among the events the call adds to the log. -/
theorem exit_never_waits (s : PtySession) (os : OS) :
    ((PtySession.exit s os).2).childReaped = os.childReaped ∧
    ((PtySession.exit s os).2).childSt = os.childSt ∧
    ((((PtySession.exit s os).2).log.drop os.log.length).all
      (fun e => ! e.isWait)) = true := by
  unfold PtySession.exit
  split
  · rename_i e os₁ heq
    unfold sysKill at heq
    split at heq <;> cases heq
    simp [List.drop_length]
  · rename_i u os₁ heq
    unfold sysKill at heq
    split at heq <;> cases heq
    split
    · rename_i e os₂ heq₂
      unfold sysClose at heq₂
      split at heq₂ <;> cases heq₂
      refine ⟨rfl, rfl, ?_⟩
      simp [SysEvent.isWait]
    · rename_i u₂ os₂ heq₂
      unfold sysClose at heq₂
      split at heq₂ <;> cases heq₂
      refine ⟨rfl, rfl, ?_⟩
      simp [SysEvent.isWait, List.append_assoc]

theorem lastNlSplit_append (data pre post : List Byte)
    (h : lastNlSplit data = some (pre, post)) : pre ++ post = data := by
  induction data generalizing pre post with
  | nil => cases h
  | cons b rest ih =>
    unfold lastNlSplit at h
    split at h
    · rename_i p q heq
      cases h
      rw [List.cons_append, ih _ _ heq]
    · split at h
      · cases h
        simp
      · cases h

theorem sysWrite_ok_written (fd : Fd) (data : List Byte) (os os₁ : OS) (u : Unit)
    (h : sysWrite fd data os = (Except.ok u, os₁)) :
    os₁.ptyWritten = os.ptyWritten ++ data := by
  unfold sysWrite at h
  split at h <;> cases h
  rfl

theorem sysWrite_written_extends (fd : Fd) (data : List Byte) (os : OS) :
    ∃ t, ((sysWrite fd data os).2).ptyWritten = os.ptyWritten ++ t := by
  unfold sysWrite
  split
  · exact ⟨[], by simp⟩
  · exact ⟨data, rfl⟩

theorem flushBuf_ok_spec (w : LineWriter) (os : OS) (w₁ : LineWriter) (os₁ : OS) (u : Unit)
    (h : flushBuf w os = (Except.ok u, w₁, os₁)) :
    os₁.ptyWritten = os.ptyWritten ++ w.buf ∧ w₁.buf = [] ∧ w₁.fd = w.fd := by
  unfold flushBuf at h
  split at h
  · rename_i hemp
    cases h
    simp_all [List.isEmpty_iff]
  · split at h <;> cases h
    rename_i os' heq
    exact ⟨sysWrite_ok_written _ _ _ _ _ heq, rfl, rfl⟩

theorem flushBuf_written_extends (w : LineWriter) (os : OS) :
    ∃ t, ((flushBuf w os).2.2).ptyWritten = os.ptyWritten ++ t := by
  unfold flushBuf
  split
  · exact ⟨[], by simp⟩
  · split
    · rename_i os' heq
      refine ⟨w.buf, ?_⟩
      have := sysWrite_ok_written w.fd w.buf os os' _ heq
      simpa using this
    · rename_i e os' heq
      refine ⟨[], ?_⟩
      have := sysWrite_written_extends w.fd w.buf os
      rw [heq] at this
      obtain ⟨t, ht⟩ := this
      -- on error `sysWrite` leaves the state unchanged
      unfold sysWrite at heq
      split at heq <;> cases heq
      simp

theorem bufWriterWrite_conservation (w : LineWriter) (data : List Byte) (os : OS)
    (w' : LineWriter) (os' : OS) (u : Unit)
    (h : bufWriterWrite w data os = (Except.ok u, w', os')) :
    os'.ptyWritten ++ w'.buf = os.ptyWritten ++ w.buf ++ data ∧ w'.fd = w.fd := by
  unfold bufWriterWrite at h
  split at h
  · cases h
  · rename_i a wA osA heq
    split at heq
    · rename_i hc
      obtain ⟨hw, hb, hf⟩ := flushBuf_ok_spec w os wA osA _ heq
      split at h
      · split at h
        · rename_i osB heqW
          have hwB := sysWrite_ok_written wA.fd data osA osB _ heqW
          cases h
          refine ⟨?_, hf⟩
          rw [hwB, hw, hb]
          simp [List.append_assoc]
        · cases h
      · cases h
        refine ⟨?_, by simp [hf]⟩
        rw [hw]
        simp [hb, List.append_assoc]
    · rename_i hc
      cases heq
      split at h
      · rename_i hge
        have hbuf : w.buf = [] := by
          have hl : w.buf.length = 0 := by omega
          exact List.length_eq_zero.mp hl
        split at h
        · rename_i osB heqW
          have hwB := sysWrite_ok_written w.fd data os osB _ heqW
          cases h
          refine ⟨?_, rfl⟩
          rw [hwB, hbuf]
          simp
        · cases h
      · cases h
        exact ⟨by simp [List.append_assoc], rfl⟩

theorem bufWriterWrite_written_extends (w : LineWriter) (data : List Byte) (os : OS) :
    ∃ t, ((bufWriterWrite w data os).2.2).ptyWritten = os.ptyWritten ++ t := by
  unfold bufWriterWrite
  split
  · rename_i e wA osA heq
    split at heq
    · have hA := flushBuf_written_extends w os
      rw [heq] at hA
      simpa using hA
    · cases heq
  · rename_i a wA osA heq
    have hA : ∃ t, osA.ptyWritten = os.ptyWritten ++ t := by
      split at heq
      · have hx := flushBuf_written_extends w os
        rw [heq] at hx
        simpa using hx
      · cases heq
        exact ⟨[], by simp⟩
    obtain ⟨t₁, ht₁'⟩ := hA
    split
    · split
      · rename_i osB heqW
        have hB := sysWrite_written_extends wA.fd data osA
        rw [heqW] at hB
        obtain ⟨t₂, ht₂⟩ := hB
        have ht₂' : osB.ptyWritten = osA.ptyWritten ++ t₂ := ht₂
        exact ⟨t₁ ++ t₂, by rw [ht₂', ht₁', List.append_assoc]⟩
      · rename_i e osB heqW
        have hB := sysWrite_written_extends wA.fd data osA
        rw [heqW] at hB
        obtain ⟨t₂, ht₂⟩ := hB
        have ht₂' : osB.ptyWritten = osA.ptyWritten ++ t₂ := ht₂
        exact ⟨t₁ ++ t₂, by rw [ht₂', ht₁', List.append_assoc]⟩
    · exact ⟨t₁, ht₁'⟩

theorem lineWriterWriteAll_conservation (w : LineWriter) (data : List Byte) (os : OS)
    (w' : LineWriter) (os' : OS) (u : Unit)
    (h : lineWriterWriteAll w data os = (Except.ok u, w', os')) :
    os'.ptyWritten ++ w'.buf = os.ptyWritten ++ w.buf ++ data ∧ w'.fd = w.fd := by
  unfold lineWriterWriteAll at h
  split at h
  · exact bufWriterWrite_conservation w data os w' os' u h
  · rename_i pre post hsplit
    split at h
    · cases h
    · rename_i wA osA heq
      obtain ⟨hw, hb, hf⟩ := flushBuf_ok_spec w os wA osA _ heq
      split at h
      · cases h
      · rename_i osB heqW
        have hwB := sysWrite_ok_written wA.fd pre osA osB _ heqW
        obtain ⟨hcons, hfd⟩ := bufWriterWrite_conservation wA post osB w' os' u h
        refine ⟨?_, by rw [hfd, hf]⟩
        rw [hcons, hwB, hw, hb]
        have := lastNlSplit_append data pre post hsplit
        rw [← this]
        simp [List.append_assoc]

/-- C3: `send_line` pushes exactly the bytes of the given string into the
session's output channel: on success, the bytes that have reached the device
plus the bytes still buffered grow by precisely `line` — no line terminator
(nor any other byte) is appended. -/
theorem send_line_exact_bytes (s : PtySession) (line : List Byte) (os : OS)
    (s' : PtySession) (os' : OS)
    (h : PtySession.send_line s line os = (Except.ok (), s', os')) :
    os'.ptyWritten ++ s'.writer.buf = os.ptyWritten ++ s.writer.buf ++ line := by
  unfold PtySession.send_line at h
  split at h
  · rename_i w₁ os₁ heq
    cases h
    exact (lineWriterWriteAll_conservation s.writer line os _ _ _ heq).1
  · cases h

/-- Witness for C3: sending the four bytes of `"hans"` adds exactly those
four bytes, and nothing else, to the channel. -/
theorem send_line_exact_bytes_witness :
    ((PtySession.send_line sampleSession [104, 97, 110, 115] sampleOS).2.2).ptyWritten
      ++ ((PtySession.send_line sampleSession [104, 97, 110, 115] sampleOS).2.1).writer.buf
      = sampleOS.ptyWritten ++ sampleSession.writer.buf ++ [104, 97, 110, 115] :=
  send_line_exact_bytes sampleSession [104, 97, 110, 115] sampleOS
    ((PtySession.send_line sampleSession [104, 97, 110, 115] sampleOS).2.1)
    ((PtySession.send_line sampleSession [104, 97, 110, 115] sampleOS).2.2)
    (by decide)

/-- A `send_line` whose bytes contain no newline and fit in the writer's
buffer is absorbed entirely by the in-memory buffer: the call succeeds and
the OS state — descriptor table, device bytes, syscall log — is untouched. -/
theorem send_line_all_buffered (s : PtySession) (line : List Byte) (os : OS)
    (h₁ : lastNlSplit line = none)
    (h₂ : s.writer.buf.length + line.length ≤ lineWriterCapacity)
    (h₃ : line.length < lineWriterCapacity) :
    PtySession.send_line s line os
      = (Except.ok (),
         { s with writer := { fd := s.writer.fd, buf := s.writer.buf ++ line } }, os) := by
  have hc : ¬ lineWriterCapacity < s.writer.buf.length + line.length := by omega
  have hd : ¬ lineWriterCapacity ≤ line.length := by omega
  unfold PtySession.send_line lineWriterWriteAll bufWriterWrite
  rw [h₁]
  simp [hc, hd]

/-- C10 amended: a `send_line` whose string contains no newline, is shorter
than the writer's buffer capacity, and together with the already-buffered
bytes fits within that capacity writes nothing to the underlying descriptor:
the call succeeds, all bytes remain in the writer's in-memory buffer, and the
OS state (including the device byte stream and the descriptor table) is
unchanged — hence such a call succeeds even when the descriptor is closed. -/
theorem send_line_no_newline_stays_buffered (s : PtySession) (line : List Byte) (os : OS)
    (h₁ : lastNlSplit line = none)
    (h₂ : s.writer.buf.length + line.length ≤ lineWriterCapacity)
    (h₃ : line.length < lineWriterCapacity) :
    (PtySession.send_line s line os).1 = Except.ok () ∧
    ((PtySession.send_line s line os).2.1).writer.buf = s.writer.buf ++ line ∧
    (PtySession.send_line s line os).2.2 = os := by
  rw [send_line_all_buffered s line os h₁ h₂ h₃]
  exact ⟨rfl, rfl, rfl⟩

/-- Witness for C10 (amended), on an OS state whose descriptor table is empty
(every descriptor closed): the call still succeeds and buffers the bytes. -/
theorem send_line_no_newline_stays_buffered_witness :
    (PtySession.send_line sampleSession [104, 97, 110, 115]
        { sampleOS with fdTable := [] }).1 = Except.ok () ∧
    ((PtySession.send_line sampleSession [104, 97, 110, 115]
        { sampleOS with fdTable := [] }).2.1).writer.buf
      = sampleSession.writer.buf ++ [104, 97, 110, 115] ∧
    (PtySession.send_line sampleSession [104, 97, 110, 115]
        { sampleOS with fdTable := [] }).2.2 = { sampleOS with fdTable := [] } :=
  send_line_no_newline_stays_buffered sampleSession [104, 97, 110, 115]
    { sampleOS with fdTable := [] } (by decide) (by decide) (by decide)

theorem lastNlSplit_replicate (n : Nat) (a : Byte) (h : (a == newlineByte) = false) :
    lastNlSplit (List.replicate n a) = none := by
  induction n with
  | zero => rfl
  | succ n ih =>
    rw [List.replicate_succ]
    unfold lastNlSplit
    rw [ih]
    simp [h]

set_option maxRecDepth 100000 in
/-- C10 counterexample: a newline-free line of exactly the writer's buffer
capacity (1024 bytes, on a fresh writer whose buffer is empty) is *not* kept
in memory even though it fits the buffer: `BufWriter::write` sends data of
length at least the capacity straight to the descriptor, so the call does
write to the underlying device, refuting the claim as stated for every
newline-free string. -/
theorem send_line_no_newline_writes_through :
    lastNlSplit (List.replicate 1024 97) = none ∧
    sampleSession.writer.buf.length + (List.replicate 1024 97).length
      ≤ lineWriterCapacity ∧
    ((PtySession.send_line sampleSession (List.replicate 1024 97) sampleOS).2.2).ptyWritten
      ≠ sampleOS.ptyWritten := by
  refine ⟨lastNlSplit_replicate 1024 97 (by decide), by decide, ?_⟩
  decide

theorem lineWriterWriteAll_flushes_nl (w : LineWriter) (data pre post : List Byte)
    (os : OS) (w' : LineWriter) (os' : OS) (u : Unit)
    (hsplit : lastNlSplit data = some (pre, post))
    (h : lineWriterWriteAll w data os = (Except.ok u, w', os')) :
    os'.ptyWritten.take (os.ptyWritten.length + w.buf.length + pre.length)
      = os.ptyWritten ++ w.buf ++ pre := by
  unfold lineWriterWriteAll at h
  split at h
  · rename_i heqN
    rw [heqN] at hsplit
    cases hsplit
  · rename_i pre' post' heqS
    rw [heqS] at hsplit
    cases hsplit
    split at h
    · cases h
    rename_i wA osA heqF
    obtain ⟨hwA, hbA, hfA⟩ := flushBuf_ok_spec w os wA osA _ heqF
    split at h
    · cases h
    · rename_i osB heqW
      have hwB := sysWrite_ok_written wA.fd pre osA osB _ heqW
      have hext := bufWriterWrite_written_extends wA post osB
      rw [h] at hext
      obtain ⟨t, ht⟩ := hext
      have ht' : os'.ptyWritten = osB.ptyWritten ++ t := ht
      rw [ht', hwB, hwA]
      have hN : os.ptyWritten.length + w.buf.length + pre.length
          = ((os.ptyWritten ++ w.buf) ++ pre).length := by
        simp [List.length_append, Nat.add_assoc]
      rw [hN, List.take_left]

/-- C5: The output channel is line-buffered: when the sent string
contains a newline (splitting at the last newline into `pre ++ post`), a
successful `send_line` has flushed the previously buffered bytes and the
string's bytes up to and including that newline to the underlying descriptor
before returning. -/
theorem send_line_newline_flushes (s : PtySession) (line pre post : List Byte)
    (os : OS) (s' : PtySession) (os' : OS)
    (hsplit : lastNlSplit line = some (pre, post))
    (h : PtySession.send_line s line os = (Except.ok (), s', os')) :
    os'.ptyWritten.take (os.ptyWritten.length + s.writer.buf.length + pre.length)
      = os.ptyWritten ++ s.writer.buf ++ pre := by
  unfold PtySession.send_line at h
  split at h
  · rename_i w₁ os₁ heq
    cases h
    exact lineWriterWriteAll_flushes_nl s.writer line pre post os w₁ os' _ hsplit heq
  · cases h

/-- Witness for C5: sending `"hi\n"` (bytes `[104, 105, 10]`) flushes those
three bytes to the descriptor before the call returns. -/
theorem send_line_newline_flushes_witness :
    (((PtySession.send_line sampleSession [104, 105, 10] sampleOS).2.2).ptyWritten.take
        (sampleOS.ptyWritten.length + sampleSession.writer.buf.length + 3))
      = sampleOS.ptyWritten ++ sampleSession.writer.buf ++ [104, 105, 10] :=
  send_line_newline_flushes sampleSession [104, 105, 10] [104, 105, 10] [] sampleOS
    ((PtySession.send_line sampleSession [104, 105, 10] sampleOS).2.1)
    ((PtySession.send_line sampleSession [104, 105, 10] sampleOS).2.2)
    (by decide) (by decide)

/-- C4 amended: after a successful `exit()`, a subsequent `send_line` does
not necessarily return an I/O error: a call whose bytes contain no newline,
are fewer than the writer's buffer capacity, and fit in the buffer together
with the already-buffered bytes succeeds, is absorbed entirely by the
in-memory buffer, and performs no operation on the closed descriptor (the OS
state is untouched). -/
theorem post_exit_buffered_send_succeeds (s : PtySession) (os os' : OS) (line : List Byte)
    (_hexit : PtySession.exit s os = (Except.ok (), os'))
    (h₁ : lastNlSplit line = none)
    (h₂ : s.writer.buf.length + line.length ≤ lineWriterCapacity)
    (h₃ : line.length < lineWriterCapacity) :
    (PtySession.send_line s line os').1 = Except.ok () ∧
    (PtySession.send_line s line os').2.2 = os' := by
  rw [send_line_all_buffered s line os' h₁ h₂ h₃]
  exact ⟨rfl, rfl⟩

/-- Witness for C4 (amended): after a successful `exit` from the post-spawn
state, sending the four bytes of `"hans"` succeeds and leaves the OS state
unchanged. -/
theorem post_exit_buffered_send_succeeds_witness :
    (PtySession.send_line sampleSession [104, 97, 110, 115]
        ((PtySession.exit sampleSession sampleOS).2)).1 = Except.ok () ∧
    (PtySession.send_line sampleSession [104, 97, 110, 115]
        ((PtySession.exit sampleSession sampleOS).2)).2.2
      = (PtySession.exit sampleSession sampleOS).2 :=
  post_exit_buffered_send_succeeds sampleSession sampleOS
    ((PtySession.exit sampleSession sampleOS).2) [104, 97, 110, 115]
    (by decide) (by decide) (by decide) (by decide)

/-- C4 counterexample: A full concrete run refuting the claim as
stated: `spawn "cat"` succeeds, `exit()` succeeds, and a subsequent
`send_line` of `"hans"` returns `Ok` — not an I/O error. -/
theorem post_exit_send_line_not_error :
    (spawn "cat" initOS).1 = Except.ok sampleSession ∧
    (PtySession.exit sampleSession ((spawn "cat" initOS).2)).1 = Except.ok () ∧
    (PtySession.send_line sampleSession [104, 97, 110, 115]
        ((PtySession.exit sampleSession ((spawn "cat" initOS).2)).2)).1
      = Except.ok () := by
  decide

theorem find?_key_ge_append (l₁ l₂ : List (Fd × ResId)) (n k : Fd)
    (hwf : l₁.all (fun p => decide (p.1 < n)) = true) (hk : n ≤ k) :
    (l₁ ++ l₂).find? (fun p => p.1 == k) = l₂.find? (fun p => p.1 == k) := by
  induction l₁ with
  | nil => rfl
  | cons p t ih =>
    simp only [List.all_cons, Bool.and_eq_true, decide_eq_true_eq] at hwf
    obtain ⟨hp, ht⟩ := hwf
    have hne : (p.1 == k) = false := by
      simp [Nat.ne_of_lt (Nat.lt_of_lt_of_le hp hk)]
    simp [List.find?_cons, hne, ih ht]

theorem sysWrite_fdTable (fd : Fd) (data : List Byte) (os : OS) :
    ((sysWrite fd data os).2).fdTable = os.fdTable := by
  unfold sysWrite
  split <;> rfl

theorem flushBuf_fdTable (w : LineWriter) (os : OS) :
    ((flushBuf w os).2.2).fdTable = os.fdTable := by
  unfold flushBuf
  split
  · rfl
  · split
    · rename_i os₁ heq
      have hh := sysWrite_fdTable w.fd w.buf os
      rw [heq] at hh
      exact hh
    · rename_i e os₁ heq
      have hh := sysWrite_fdTable w.fd w.buf os
      rw [heq] at hh
      exact hh

theorem bufWriterWrite_fdTable (w : LineWriter) (data : List Byte) (os : OS) :
    ((bufWriterWrite w data os).2.2).fdTable = os.fdTable := by
  unfold bufWriterWrite
  split
  · rename_i e w₁ os₁ heq
    split at heq
    · have hh := flushBuf_fdTable w os
      rw [heq] at hh
      exact hh
    · cases heq
  · rename_i a w₁ os₁ heq
    have hh : os₁.fdTable = os.fdTable := by
      split at heq
      · have hx := flushBuf_fdTable w os
        rw [heq] at hx
        exact hx
      · cases heq
        rfl
    split
    · split
      · rename_i os₂ heqW
        have hh₂ := sysWrite_fdTable w₁.fd data os₁
        rw [heqW] at hh₂
        exact hh₂.trans hh
      · rename_i e os₂ heqW
        have hh₂ := sysWrite_fdTable w₁.fd data os₁
        rw [heqW] at hh₂
        exact hh₂.trans hh
    · exact hh

theorem lineWriterWriteAll_fdTable (w : LineWriter) (data : List Byte) (os : OS) :
    ((lineWriterWriteAll w data os).2.2).fdTable = os.fdTable := by
  unfold lineWriterWriteAll
  split
  · exact bufWriterWrite_fdTable w data os
  · rename_i pre post hsplit
    split
    · rename_i e w₁ os₁ heq
      have hh := flushBuf_fdTable w os
      rw [heq] at hh
      exact hh
    · rename_i w₁ os₁ heq
      have hh := flushBuf_fdTable w os
      rw [heq] at hh
      split
      · rename_i e os₂ heqW
        have hh₂ := sysWrite_fdTable w₁.fd pre os₁
        rw [heqW] at hh₂
        exact hh₂.trans hh
      · rename_i os₂ heqW
        have hh₂ := sysWrite_fdTable w₁.fd pre os₁
        rw [heqW] at hh₂
        exact (bufWriterWrite_fdTable w₁ post os₂).trans (hh₂.trans hh)

theorem send_line_fdTable (s : PtySession) (line : List Byte) (os : OS) :
    ((PtySession.send_line s line os).2.2).fdTable = os.fdTable := by
  unfold PtySession.send_line
  split
  · rename_i w₁ os₁ heq
    have hh := lineWriterWriteAll_fdTable s.writer line os
    rw [heq] at hh
    exact hh
  · rename_i e w₁ os₁ heq
    have hh := lineWriterWriteAll_fdTable s.writer line os
    rw [heq] at hh
    exact hh

theorem sysWaitpid_fdTable (pid : Pid) (nohang : Bool) (os : OS) :
    ((sysWaitpid pid nohang os).2).fdTable = os.fdTable := by
  unfold sysWaitpid
  split
  · rfl
  · split
    · split <;> rfl
    · rfl
    · rfl

theorem status_fdTable (s : PtySession) (os : OS) :
    ((PtySession.status s os).2).fdTable = os.fdTable := by
  unfold PtySession.status
  split
  · rename_i w os₁ heq
    have hh := sysWaitpid_fdTable s.process.child_pid true os
    rw [heq] at hh
    exact hh
  · rename_i e os₁ heq
    have hh := sysWaitpid_fdTable s.process.child_pid true os
    rw [heq] at hh
    exact hh
  · rename_i os₁ heq
    have hh := sysWaitpid_fdTable s.process.child_pid true os
    rw [heq] at hh
    exact hh

theorem sysDup_ok_spec (fd : Fd) (os : OS) (wfd : Fd) (os₂ : OS)
    (h : sysDup fd os = (Except.ok wfd, os₂)) :
    ∃ r, os.lookupFd fd = some r ∧ wfd = os.nextFd ∧
      os₂.fdTable = os.fdTable ++ [(os.nextFd, r)] ∧ os₂.nextFd = os.nextFd + 1 := by
  unfold sysDup at h
  split at h
  · cases h
  · rename_i r hlook
    split at h
    · cases h
    · cases h
      exact ⟨r, hlook, rfl, rfl, rfl⟩

/-- C6: In every session produced by `spawn` (from a well-formed OS
state), the writer's descriptor, the reader's descriptor and the wrapped
`PtyProcess`'s descriptor all refer to the same underlying PTY master (the
freshly allocated resource), and neither `send_line` nor `status` ever
changes the descriptor table, so the wiring persists across those
operations. -/
theorem spawn_writer_reader_same_master (p : String) (os : OS) (s : PtySession) (os' : OS)
    (hwf : os.wf = true) (h : spawn p os = (Except.ok s, os')) :
    (os'.lookupFd s.writer.fd = some os.nextRes ∧
     os'.lookupFd s.readerFd = some os.nextRes ∧
     os'.lookupFd s.process.pty = some os.nextRes ∧
     s.readerFd = s.process.pty) ∧
    (∀ line os₂, ((PtySession.send_line s line os₂).2.2).fdTable = os₂.fdTable) ∧
    (∀ os₂, ((PtySession.status s os₂).2).fdTable = os₂.fdTable) := by
  refine ⟨?_, fun line os₂ => send_line_fdTable s line os₂,
          fun os₂ => status_fdTable s os₂⟩
  unfold spawn at h
  dsimp only [] at h
  split at h
  · cases h
  · rename_i process os₁ heqP
    split at h
    · cases h
    · rename_i wfd os₂ heqD
      cases h
      unfold PtyProcess.new at heqP
      split at heqP
      · cases heqP
      · cases heqP
        obtain ⟨r, hlook, hwfd, htab, hnext⟩ := sysDup_ok_spec _ _ _ _ heqD
        have hwf' : os.fdTable.all (fun q => decide (q.1 < os.nextFd)) = true := hwf
        have hr : r = os.nextRes := by
          unfold OS.lookupFd at hlook
          rw [show ({ os with
                fdTable := os.fdTable ++ [(os.nextFd, os.nextRes)],
                nextFd := os.nextFd + 1, nextRes := os.nextRes + 1,
                childPid := os.nextPid, nextPid := os.nextPid + 1,
                childSt := ChildSt.running, childReaped := false,
                childSignals := [], childProgram := some (Command.new p).program,
                childArgs := (Command.new p).args } : OS).fdTable
              = os.fdTable ++ [(os.nextFd, os.nextRes)] from rfl] at hlook
          rw [find?_key_ge_append os.fdTable _ os.nextFd os.nextFd hwf' (Nat.le_refl _)]
            at hlook
          simp [List.find?_cons] at hlook
          exact hlook.symm
        subst hr
        subst hwfd
        constructor
        · unfold OS.lookupFd
          rw [htab]
          rw [show ({ os with
                fdTable := os.fdTable ++ [(os.nextFd, os.nextRes)],
                nextFd := os.nextFd + 1, nextRes := os.nextRes + 1,
                childPid := os.nextPid, nextPid := os.nextPid + 1,
                childSt := ChildSt.running, childReaped := false,
                childSignals := [], childProgram := some (Command.new p).program,
                childArgs := (Command.new p).args } : OS).fdTable
              = os.fdTable ++ [(os.nextFd, os.nextRes)] from rfl]
          rw [List.append_assoc]
          rw [find?_key_ge_append os.fdTable _ os.nextFd (os.nextFd + 1) hwf'
            (Nat.le_succ _)]
          simp [List.find?_cons]
        · refine ⟨?_, ?_, rfl⟩ <;>
          · unfold OS.lookupFd
            rw [htab]
            rw [show ({ os with
                  fdTable := os.fdTable ++ [(os.nextFd, os.nextRes)],
                  nextFd := os.nextFd + 1, nextRes := os.nextRes + 1,
                  childPid := os.nextPid, nextPid := os.nextPid + 1,
                  childSt := ChildSt.running, childReaped := false,
                  childSignals := [], childProgram := some (Command.new p).program,
                  childArgs := (Command.new p).args } : OS).fdTable
                = os.fdTable ++ [(os.nextFd, os.nextRes)] from rfl]
            rw [List.append_assoc]
            rw [find?_key_ge_append os.fdTable _ os.nextFd os.nextFd hwf'
              (Nat.le_refl _)]
            simp [List.find?_cons]

/-- Witness for C6: after `spawn "cat"` from the initial state, writer
(fd 4), reader (fd 3) and the process's master (fd 3) all map to resource 0. -/
theorem spawn_writer_reader_same_master_witness :
    ((spawn "cat" initOS).2).lookupFd sampleSession.writer.fd = some initOS.nextRes ∧
    ((spawn "cat" initOS).2).lookupFd sampleSession.readerFd = some initOS.nextRes ∧
    ((spawn "cat" initOS).2).lookupFd sampleSession.process.pty = some initOS.nextRes ∧
    sampleSession.readerFd = sampleSession.process.pty :=
  (spawn_writer_reader_same_master "cat" initOS sampleSession ((spawn "cat" initOS).2)
    (by decide) (by decide)).1

/-- C8: Every fallible operation of the core either succeeds or returns
the underlying OS error wrapped (`chain_err`) with the operation's context
string; no other outcome (suppression, panic) exists: the result is always
one of these two shapes. -/
theorem every_op_wraps_os_errors :
    (∀ s line os, (PtySession.send_line s line os).1 = Except.ok () ∨
      ∃ e, (PtySession.send_line s line os).1
        = Except.error (RError.chained "cannot write line to process" (RError.os e))) ∧
    (∀ s os, (∃ w, (PtySession.status s os).1 = Except.ok w) ∨
      ∃ e, (PtySession.status s os).1
        = Except.error (RError.chained "cannot read status" (RError.os e))) ∧
    (∀ s os, (PtySession.exit s os).1 = Except.ok () ∨
      ∃ e, (PtySession.exit s os).1
        = Except.error (RError.chained "failed to exit process" (RError.os e))) ∧
    (∀ p os, (∃ sess, (spawn p os).1 = Except.ok sess) ∨
      ∃ e, (spawn p os).1
          = Except.error (RError.chained "couldn't start process" (RError.os e)) ∨
        (spawn p os).1
          = Except.error (RError.chained "couldn't open write stream" (RError.os e))) := by
  refine ⟨?_, ?_, ?_, ?_⟩
  · intro s line os
    unfold PtySession.send_line
    split
    · exact Or.inl rfl
    · rename_i e w₁ os₁ heq
      exact Or.inr ⟨e, rfl⟩
  · intro s os
    unfold PtySession.status
    split
    · rename_i w os₁ heq
      exact Or.inl ⟨w, rfl⟩
    · rename_i e os₁ heq
      exact Or.inr ⟨e, rfl⟩
    · exact Or.inr ⟨Errno.EIO, rfl⟩
  · intro s os
    unfold PtySession.exit
    split
    · rename_i e os₁ heq
      exact Or.inr ⟨e, rfl⟩
    · rename_i u os₁ heq
      split
      · rename_i e os₂ heq₂
        exact Or.inr ⟨e, rfl⟩
      · exact Or.inl rfl
  · intro p os
    unfold spawn
    dsimp only []
    split
    · rename_i e os₁ heq
      exact Or.inr ⟨e, Or.inl rfl⟩
    · rename_i process os₁ heq
      split
      · rename_i e os₂ heq₂
        exact Or.inr ⟨e, Or.inr rfl⟩
      · rename_i wfd os₂ heq₂
        exact Or.inl ⟨_, rfl⟩

/-- Frame of `sysDup`: it never touches the child bookkeeping. -/
theorem sysDup_child_frame (fd : Fd) (os : OS) :
    ((sysDup fd os).2).childProgram = os.childProgram ∧
    ((sysDup fd os).2).childArgs = os.childArgs := by
  unfold sysDup
  split
  · exact ⟨rfl, rfl⟩
  · split
    · exact ⟨rfl, rfl⟩
    · exact ⟨rfl, rfl⟩

/-- C9: `spawn` passes the whole input string as the program name, with
no argument splitting: after a successful `spawn p`, the child was launched
with program name exactly `p` and an empty argument list. -/
theorem spawn_does_not_split_program (p : String) (os : OS) (s : PtySession) (os' : OS)
    (h : spawn p os = (Except.ok s, os')) :
    os'.childProgram = some p ∧ os'.childArgs = [] := by
  unfold spawn at h
  dsimp only [] at h
  split at h
  · cases h
  · rename_i process os₁ heqP
    split at h
    · cases h
    · rename_i wfd os₂ heqD
      have hf := sysDup_child_frame process.pty os₁
      rw [heqD] at hf
      cases h
      unfold PtyProcess.new at heqP
      split at heqP
      · cases heqP
      · cases heqP
        exact ⟨hf.1, hf.2⟩

/-- Witness for C9: `spawn "sleep 5"` records the space-containing string
`"sleep 5"` as the single program name and an empty argument list — it does
not split into program `"sleep"` with argument `"5"`. -/
theorem spawn_does_not_split_program_witness :
    ((spawn "sleep 5" initOS).2).childProgram = some "sleep 5" ∧
    ((spawn "sleep 5" initOS).2).childArgs = [] :=
  spawn_does_not_split_program "sleep 5" initOS sampleSession
    ((spawn "sleep 5" initOS).2) (by decide)
